import Mathlib

/-!
Verification of the ride-dispatch engine of the cab-booking repository.

The definitions below are a shallow embedding of the JavaScript source:
  * `src/services/rides-service/server.js` — Mongoose schemas for rides and
    dispatches, the `/ack-offer`, `/offers/start`, `/create`, `/confirm` and
    `/start-ride` handlers, `computeDispatch`, and `getIdemKey`;
  * `src/services/dispatcher-worker/worker.js` — the offer worker loop;
  * `src/services/maps-service/server.js` — the `/multi-eta` handler.

Numbers that JavaScript stores as IEEE doubles are embedded as `ℚ` where
fractional arithmetic occurs (fares, durations) and as `Nat` for identifiers
and counters.  Mongo object ids are embedded as positions in an append-only
list.  Randomness (OTP draws) and the results of outbound HTTP calls
(fare lookups, ETA matrices) enter the model as explicit parameters.
-/

namespace CabDispatch

/-- Candidate status, from the `dispatch` schema's candidate `status` enum
`['pending','offered','ack','timeout','rejected','skipped','assigned']`
(rides-service `server.js` line 85). -/
inductive CandStatus
  | pending | offered | ack | timeout | rejected | skipped | assigned
deriving DecidableEq, Repr

/-- Dispatch status, from the `dispatch` schema's `status` enum
`['pending','assigned','completed','cancelled']` (rides-service
`server.js` line 89).  Note there is no `exhausted` value. -/
inductive DispStatus
  | pending | assigned | completed | cancelled
deriving DecidableEq, Repr

/-- Ride status, from the `ride` schema's `status` enum
`['pending','accepted','ongoing','completed','cancelled']` (rides-service
`server.js` line 69). -/
inductive RideStatus
  | pending | accepted | ongoing | completed | cancelled
deriving DecidableEq, Repr

/-- One entry of `dispatch.candidates` (rides-service `server.js`
lines 81-86). -/
structure Candidate where
  captainId : Nat
  socketId : Nat
  etaSec : Option ℚ
  status : CandStatus
deriving DecidableEq, Repr

/-- A `dispatch` document (rides-service `server.js` lines 76-91). -/
structure Dispatch where
  user : Nat
  pickup : String
  destination : String
  candidates : List Candidate
  currentIndex : Nat
  rideId : Option Nat
  status : DispStatus
deriving DecidableEq, Repr

/-- A `ride` document (rides-service `server.js` lines 63-73).  The id is the
position of the document in the append-only ride collection. -/
structure RideRec where
  id : Nat
  user : Nat
  captain : Option Nat
  pickup : String
  destination : String
  fare : ℚ
  status : RideStatus
  otp : String
deriving DecidableEq, Repr

/-- Mongo's `$set` on the path `candidates.<i>.status`: replace the status of
the candidate at index `i`, leaving everything else unchanged (out-of-range
indices change nothing in the model; the source only writes in-range
indices obtained from `findIndex` or the loop counter). -/
def setCandStatus : List Candidate → Nat → CandStatus → List Candidate
  | [], _, _ => []
  | c :: cs, 0, st => { c with status := st } :: cs
  | c :: cs, n+1, st => c :: setCandStatus cs n st

/-- `d.candidates.findIndex(c => String(c.captainId) === String(captainId))`
(rides-service `server.js` line 351). -/
def findCandIdx (cands : List Candidate) (captainId : Nat) : Option Nat :=
  cands.findIdx? (fun c => c.captainId = captainId)

/-- Result of the `POST /ack-offer` handler: HTTP 404 with a message, or
HTTP 200 `{ok:true}`.  The handler has no 409/410 responses. -/
inductive AckResult
  | notFound | ok
deriving DecidableEq, Repr

/-- The `POST /ack-offer` handler (rides-service `server.js` lines 342-359):
404 if the dispatch is missing or its status is not `pending`; 404 if the
captain is not among the candidates; otherwise an unconditional
`updateOne` that `$set`s the candidate's status to `ack` (accepted) or
`rejected` (not accepted) and answers `{ok:true}`.  The prior candidate
status is never inspected. -/
def ackOffer (d? : Option Dispatch) (captainId : Nat) (accepted : Bool) :
    AckResult × Option Dispatch :=
  match d? with
  | none => (AckResult.notFound, d?)
  | some d =>
    if d.status ≠ DispStatus.pending then (AckResult.notFound, d?)
    else
      match findCandIdx d.candidates captainId with
      | none => (AckResult.notFound, d?)
      | some idx =>
          let st := if accepted then CandStatus.ack else CandStatus.rejected
          (AckResult.ok, some { d with candidates := setCandStatus d.candidates idx st })

/-- A pending dispatch whose only candidate (captain 7) already timed out:
the state in which a late ack arrives. -/
def lateAckDispatch : Dispatch :=
  { user := 1
    pickup := "12.97,77.59"
    destination := "12.90,77.60"
    candidates := [{ captainId := 7, socketId := 3, etaSec := some 240,
                     status := CandStatus.timeout }]
    currentIndex := 1
    rideId := none
    status := DispStatus.pending }

/-- C1 counterexample: a late `ackOffer(accepted=true)` on a candidate whose
status is already `timeout` does not yield Conflict or Gone — the handler
answers `{ok:true}` and mutates the dispatch, overwriting the candidate's
status with `ack`. -/
theorem lateAck_on_timedOut_returns_ok_and_mutates :
    (ackOffer (some lateAckDispatch) 7 true).1 = AckResult.ok ∧
    (ackOffer (some lateAckDispatch) 7 true).2 ≠ some lateAckDispatch ∧
    (ackOffer (some lateAckDispatch) 7 true).2 =
      some { lateAckDispatch with
             candidates := [{ captainId := 7, socketId := 3, etaSec := some 240,
                              status := CandStatus.ack }] } := by
  decide

/-- C1 (amended): `ackOffer` checks only that the dispatch exists with status
`pending` and that the captain is among the candidates; it then
unconditionally sets that candidate's status to `ack` (accepted=true) or
`rejected` (accepted=false), whatever the prior status — in particular a
late ack on a `timeout` candidate succeeds with `{ok:true}` and mutates the
record.  When the dispatch is missing, non-pending, or the captain is not a
candidate, the handler answers 404 and leaves the state unchanged. -/
theorem ackOffer_sets_status_unconditionally
    (d : Dispatch) (cid : Nat) (acc : Bool) (idx : Nat)
    (hp : d.status = DispStatus.pending)
    (hf : findCandIdx d.candidates cid = some idx) :
    (let st := if acc then CandStatus.ack else CandStatus.rejected
     ackOffer (some d) cid acc =
       (AckResult.ok, some { d with candidates := setCandStatus d.candidates idx st })) ∧
    (∀ e : Dispatch, e.status ≠ DispStatus.pending →
        ackOffer (some e) cid acc = (AckResult.notFound, some e)) := by
  constructor
  · simp [ackOffer, hp, hf]
  · intro e he
    simp [ackOffer, he]

/-- Witness for `ackOffer_sets_status_unconditionally` at the late-ack
dispatch: hypotheses hold there and the conclusion follows. -/
theorem ackOffer_sets_status_unconditionally_witness :
    lateAckDispatch.status = DispStatus.pending ∧
    findCandIdx lateAckDispatch.candidates 7 = some 0 ∧
    ((let st := if true then CandStatus.ack else CandStatus.rejected
      ackOffer (some lateAckDispatch) 7 true =
        (AckResult.ok,
         some { lateAckDispatch with
                candidates := setCandStatus lateAckDispatch.candidates 0 st })) ∧
     (∀ e : Dispatch, e.status ≠ DispStatus.pending →
        ackOffer (some e) 7 true = (AckResult.notFound, some e))) :=
  ⟨by decide, by decide,
   ackOffer_sets_status_unconditionally lateAckDispatch 7 true 0
     (by decide) (by decide)⟩

/-! ### The ETA oracle: `GET /multi-eta` (maps-service `server.js` 131-151) -/

/-- JavaScript coercion of a possibly-null array entry to a number inside a
comparison (`null` coerces to `0`).  It appears in the translation of the
argmin reduce below exactly where the JS expression `filtered[best]` does;
that position is only read when `best ≥ 0`, where the entry is never null. -/
def jsVal : Option ℚ → ℚ
  | none => 0
  | some v => v

/-- The bound filter
`durations.map(d => (d <= Number(boundSec) ? d : null))`
(maps-service `server.js` line 135; same expression at line 149).  A `null`
entry maps to `null` for every bound: when the bound is nonnegative the JS
comparison holds (`null` coerces to 0) and `d` itself — `null` — is kept,
otherwise `null` is substituted. -/
def boundFilter (bound : Option ℚ) (durations : List (Option ℚ)) :
    List (Option ℚ) :=
  match bound with
  | none => durations
  | some b => durations.map (fun d =>
      match d with
      | none => none
      | some v => if v ≤ b then some v else none)

/-- One step of the argmin reduce
`(best, d, i) => (d !== null && (best < 0 || d < filtered[best]) ? i : best)`
(maps-service `server.js` line 136; same expression at line 150). -/
def bestStep (filtered : List (Option ℚ)) (best : Int) (p : Nat × Option ℚ) :
    Int :=
  match p.2 with
  | none => best
  | some d =>
      if best < 0 then (p.1 : Int)
      else if d < jsVal (filtered.getD best.toNat none) then (p.1 : Int)
      else best

/-- `filtered.reduce(..., -1)`: the index of the least non-null entry, ties to
the lowest index, `-1` when all entries are null. -/
def bestIndexOf (filtered : List (Option ℚ)) : Int :=
  filtered.enum.foldl (bestStep filtered) (-1)

/-- The `GET /multi-eta` response `{durations, bestIndex}` as a function of
the raw per-source durations returned by the routing backend and the optional
`boundSec` parameter (maps-service `server.js` lines 134-137). -/
def multiEta (raw : List (Option ℚ)) (bound : Option ℚ) :
    List (Option ℚ) × Int :=
  let filtered := boundFilter bound raw
  (filtered, bestIndexOf filtered)

/-- Invariant of the argmin reduce after the first `t` entries have been
processed: either the accumulator is `-1` and those entries are all null, or
it is the lowest index among the first `t` entries holding their least
non-null value. -/
def BestInv (l : List (Option ℚ)) (t : Nat) (best : Int) : Prop :=
  (best = -1 ∧ ∀ j, j < t → l.getD j none = none) ∨
  (∃ (bn : Nat) (m : ℚ), best = (bn : Int) ∧ bn < t ∧ l.getD bn none = some m ∧
    (∀ j v, j < t → l.getD j none = some v → m ≤ v) ∧
    (∀ j v, j < bn → l.getD j none = some v → m < v))

theorem bestInv_step (l : List (Option ℚ)) (t : Nat) (best : Int)
    (x : Option ℚ) (hx : l.getD t none = x) (h : BestInv l t best) :
    BestInv l (t + 1) (bestStep l best (t, x)) := by
  rcases x with _ | d
  · simp only [bestStep]
    rcases h with ⟨hb, hall⟩ | ⟨bn, m, hb, hbt, hget, hmin, hstrict⟩
    · refine Or.inl ⟨hb, fun j hj => ?_⟩
      rcases Nat.lt_succ_iff_lt_or_eq.mp hj with h' | rfl
      · exact hall j h'
      · exact hx
    · refine Or.inr ⟨bn, m, hb, Nat.lt_succ_of_lt hbt, hget, ?_, hstrict⟩
      intro j v hj hv
      rcases Nat.lt_succ_iff_lt_or_eq.mp hj with h' | rfl
      · exact hmin j v h' hv
      · rw [hx] at hv; cases hv
  · rcases h with ⟨hb, hall⟩ | ⟨bn, m, hb, hbt, hget, hmin, hstrict⟩
    · subst hb
      simp only [bestStep, if_pos (by norm_num : (-1 : Int) < 0)]
      refine Or.inr ⟨t, d, rfl, Nat.lt_succ_self t, hx, ?_, ?_⟩
      · intro j v hj hv
        rcases Nat.lt_succ_iff_lt_or_eq.mp hj with h' | rfl
        · rw [hall j h'] at hv; cases hv
        · rw [hx] at hv
          exact le_of_eq (Option.some.inj hv)
      · intro j v hj hv
        rw [hall j hj] at hv; cases hv
    · subst hb
      have hnneg : ¬ ((bn : Int) < 0) := by
        exact Int.not_lt.mpr (Int.ofNat_nonneg bn)
      have htn : ((bn : Int)).toNat = bn := by simp
      simp only [bestStep]
      rw [if_neg hnneg, htn, hget]
      simp only [jsVal]
      by_cases hd : d < m
      · rw [if_pos hd]
        refine Or.inr ⟨t, d, rfl, Nat.lt_succ_self t, hx, ?_, ?_⟩
        · intro j v hj hv
          rcases Nat.lt_succ_iff_lt_or_eq.mp hj with h' | rfl
          · exact le_of_lt (lt_of_lt_of_le hd (hmin j v h' hv))
          · rw [hx] at hv
            exact le_of_eq (Option.some.inj hv)
        · intro j v hj hv
          exact lt_of_lt_of_le hd (hmin j v hj hv)
      · rw [if_neg hd]
        refine Or.inr ⟨bn, m, rfl, Nat.lt_succ_of_lt hbt, hget, ?_, hstrict⟩
        intro j v hj hv
        rcases Nat.lt_succ_iff_lt_or_eq.mp hj with h' | rfl
        · exact hmin j v h' hv
        · rw [hx] at hv
          exact (Option.some.inj hv) ▸ le_of_not_lt hd

theorem bestInv_fold (l : List (Option ℚ)) :
    ∀ (rest : List (Option ℚ)) (t : Nat) (best : Int),
      t + rest.length = l.length →
      (∀ k, k < rest.length → l.getD (t + k) none = rest.getD k none) →
      BestInv l t best →
      BestInv l l.length ((List.enumFrom t rest).foldl (bestStep l) best)
  | [], t, best, hlen, _, hinv => by
      have ht : t = l.length := by simpa using hlen
      subst ht
      exact hinv
  | x :: rest, t, best, hlen, hagree, hinv => by
      have hx : l.getD t none = x := by
        have := hagree 0 (Nat.succ_pos _)
        simpa using this
      have hstep := bestInv_step l t best x hx hinv
      have hlen' : t + 1 + rest.length = l.length := by
        rw [List.length_cons] at hlen
        omega
      have hagree' : ∀ k, k < rest.length →
          l.getD (t + 1 + k) none = rest.getD k none := by
        intro k hk
        have h2 := hagree (k + 1) (by simpa using Nat.succ_lt_succ hk)
        rw [show t + (k + 1) = t + 1 + k by omega] at h2
        simpa using h2
      exact bestInv_fold l rest (t + 1) (bestStep l best (t, x)) hlen' hagree' hstep

theorem bestIndexOf_inv (l : List (Option ℚ)) :
    BestInv l l.length (bestIndexOf l) := by
  have h0 : BestInv l 0 (-1) := Or.inl ⟨rfl, fun j hj => absurd hj (Nat.not_lt_zero j)⟩
  exact bestInv_fold l l 0 (-1) (Nat.zero_add _) (fun k _ => by rw [Nat.zero_add]) h0

theorem getD_boundFilter (b : ℚ) (raw : List (Option ℚ)) (i : Nat) :
    (boundFilter (some b) raw).getD i none =
      match raw.getD i none with
      | none => none
      | some v => if v ≤ b then some v else none := by
  have h := List.getD_map raw (n := i)
      (f := fun d : Option ℚ =>
        match d with
        | none => none
        | some v => if v ≤ b then some v else none) (d := none)
  simpa [boundFilter] using h

/-- C6: for every raw durations list and every bound, `multi-eta` returns a
durations array in which entries greater than the bound are replaced by null
(entries within the bound are kept, null stays null), and `bestIndex` is the
lowest index of the least non-null returned entry, or `-1` exactly when every
returned entry is null. -/
theorem multiEta_filters_and_selects_argmin (raw : List (Option ℚ)) (b : ℚ) :
    (∀ i v, raw.getD i none = some v → b < v →
        (multiEta raw (some b)).1.getD i none = none) ∧
    (∀ i v, raw.getD i none = some v → v ≤ b →
        (multiEta raw (some b)).1.getD i none = some v) ∧
    (∀ i, raw.getD i none = none →
        (multiEta raw (some b)).1.getD i none = none) ∧
    ((∀ i, (multiEta raw (some b)).1.getD i none = none) →
        (multiEta raw (some b)).2 = -1) ∧
    (∀ i v, (multiEta raw (some b)).1.getD i none = some v →
        ∃ (bn : Nat) (m : ℚ), (multiEta raw (some b)).2 = (bn : Int) ∧
          (multiEta raw (some b)).1.getD bn none = some m ∧
          (∀ j w, (multiEta raw (some b)).1.getD j none = some w → m ≤ w) ∧
          (∀ j w, j < bn →
              (multiEta raw (some b)).1.getD j none = some w → m < w)) := by
  have hmE1 : (multiEta raw (some b)).1 = boundFilter (some b) raw := rfl
  have hmE2 : (multiEta raw (some b)).2 =
      bestIndexOf (boundFilter (some b) raw) := rfl
  rw [hmE1, hmE2]
  set fil := boundFilter (some b) raw with hfil
  have hinv := bestIndexOf_inv fil
  refine ⟨?_, ?_, ?_, ?_, ?_⟩
  · intro i v hv hb
    rw [hfil, getD_boundFilter, hv]
    simp [not_le.mpr hb]
  · intro i v hv hb
    rw [hfil, getD_boundFilter, hv]
    simp [hb]
  · intro i hv
    rw [hfil, getD_boundFilter, hv]
  · intro hall
    rcases hinv with ⟨hb1, _⟩ | ⟨bn, m, hb1, _, hget, _, _⟩
    · exact hb1
    · exfalso
      rw [hall bn] at hget
      cases hget
  · intro i v hv
    rcases hinv with ⟨_, hall⟩ | ⟨bn, m, hb1, _, hget, hmin, hstrict⟩
    · exfalso
      by_cases hi : i < fil.length
      · rw [hall i hi] at hv; cases hv
      · rw [List.getD_eq_default _ _ (Nat.le_of_not_lt hi)] at hv; cases hv
    · refine ⟨bn, m, hb1, hget, ?_, ?_⟩
      · intro j w hw
        by_cases hj : j < fil.length
        · exact hmin j w hj hw
        · rw [List.getD_eq_default _ _ (Nat.le_of_not_lt hj)] at hw; cases hw
      · intro j w hj hw
        exact hstrict j w hj hw

/-- Witness for `multiEta_filters_and_selects_argmin` at
`raw = [some 90, none, some 40, some 40]`, `b = 100`: the theorem has no
hypothesis, so this just instantiates it and reads off concrete facts. -/
theorem multiEta_filters_and_selects_argmin_witness :
    (multiEta [some 90, none, some 40, some 40] (some 100)).1.getD 1 none = none ∧
    (multiEta [some 90, none, some 40, some 40] (some 100)).2 = 2 :=
  ⟨(multiEta_filters_and_selects_argmin [some 90, none, some 40, some 40]
      100).2.2.1 1 rfl, by decide⟩

/-! ### `computeDispatch` ETA fallback and the persisted cursor (C5) -/

/-- The `{durations, bestIndex}` pair that `computeDispatch` ends up with. -/
structure EtaOut where
  durations : List (Option ℚ)
  bestIndex : Int
deriving DecidableEq, Repr

/-- The ETA portion of `computeDispatch` (rides-service `server.js`
lines 183-206), with the optional ML calibration step absent (`ML_BASE_URL`
unset): call `/multi-eta` passing `boundSec` when defined; if `boundSec` was
defined and the result has `bestIndex === -1` or all-null durations,
re-query `/multi-eta` without the bound and take its durations and
`bestIndex`. -/
def computeDispatchEta (raw : List (Option ℚ)) (bound : Option ℚ) : EtaOut :=
  let r1 := multiEta raw bound
  match bound with
  | none => ⟨r1.1, r1.2⟩
  | some _ =>
      if r1.2 = -1 ∨ r1.1.all (fun d => d == none) then
        let r2 := multiEta raw none
        ⟨r2.1, r2.2⟩
      else ⟨r1.1, r1.2⟩

/-- JS `bestIndex || 0` (rides-service `server.js` line 248): `0` replaces a
falsy `bestIndex` (only `0` itself among the values that reach it). -/
def jsOr0 (x : Int) : Int := if x = 0 then 0 else x

/-- `currentIndex: Math.max(0, bestIndex || 0)` from the dispatch document
built by `POST /offers/start` (rides-service `server.js` line 248). -/
def startCursor (bestIndex : Int) : Nat := (max 0 (jsOr0 bestIndex)).toNat

theorem startCursor_eq_max (x : Int) : startCursor x = (max 0 x).toNat := by
  unfold startCursor jsOr0
  by_cases h : x = 0 <;> simp [h]

/-- C5: when `boundSec` is set and the bounded `multi-eta` call returns
`bestIndex = -1`, `computeDispatch` re-queries `multi-eta` unbounded and uses
its durations and `bestIndex`, and the cursor persisted by
`POST /offers/start` equals `max(0, bestIndex)` of the result it uses. -/
theorem startDispatch_unbounded_fallback (raw : List (Option ℚ)) (b : ℚ)
    (h : (multiEta raw (some b)).2 = -1) :
    computeDispatchEta raw (some b) =
      ⟨(multiEta raw none).1, (multiEta raw none).2⟩ ∧
    startCursor (computeDispatchEta raw (some b)).bestIndex =
      (max 0 (multiEta raw none).2).toNat := by
  have h1 : computeDispatchEta raw (some b) =
      ⟨(multiEta raw none).1, (multiEta raw none).2⟩ := by
    simp [computeDispatchEta, h]
  refine ⟨h1, ?_⟩
  rw [h1, startCursor_eq_max]

/-- Witness for `startDispatch_unbounded_fallback`: with one raw duration of
300 s and a 60 s bound, the bounded call yields `bestIndex = -1`; the
fallback then uses the unbounded result `[300]` with `bestIndex = 0`, and the
persisted cursor is `0`. -/
theorem startDispatch_unbounded_fallback_witness :
    (multiEta [some 300] (some 60)).2 = -1 ∧
    (computeDispatchEta [some 300] (some 60) =
      ⟨(multiEta [some 300] none).1, (multiEta [some 300] none).2⟩ ∧
     startCursor (computeDispatchEta [some 300] (some 60)).bestIndex =
      (max 0 (multiEta [some 300] none).2).toNat) :=
  ⟨by decide, startDispatch_unbounded_fallback [some 300] 60 (by decide)⟩

/-! ### The offer worker (dispatcher-worker `worker.js` 32-102)

The worker processes one offer task for one dispatch.  Its interleaving with
the `/ack-offer` endpoint and with an external cancellation is modelled as a
small-step machine driven by an explicit action list: a `work` action runs
the worker to its next suspension point (each `await` of a store read/write
or the 1-second sleep), and `ackReq`/`cancelReq` actions run the concurrent
endpoints between worker steps. -/

/-- Events emitted to the socket service.  The constructors are the event
names of the spec's catalogue (§4.6); the worker only ever emits the first
three (`worker.js` lines 43-47, 82, 88) — nothing in the source emits a
`dispatch-failed` event. -/
inductive Ev
  | rideOffer (captainId : Nat) (etaSec : Option ℚ)
  | rideOfferAccepted (rideId : Nat)
  | rideAssigned (rideId : Nat)
  | dispatchFailed
deriving DecidableEq, Repr

/-- `fare = fr.data?.[vt] || 0`, with `fare` initialised to `0` and left
there when the `/get-fare` request throws (`worker.js` lines 67-72).  The
lookup outcome is passed in as an `Option`: `none` for a failed request or a
missing vehicle-type entry. -/
def workerFare (lookup : Option ℚ) : ℚ :=
  match lookup with
  | none => 0
  | some v => if v = 0 then 0 else v

/-- The worker's control point between two `await`s, carrying its local
variables: the dispatch snapshot `snap` loaded at line 35 (the loop reads
`d.candidates` and `d.candidates.length` from this stale snapshot), the ack
window, the loop index `i` and the elapsed whole seconds of the current poll
window. -/
inductive WState
  | start (ackSec : Nat)
  | loopTop (snap : Dispatch) (ackSec i : Nat)
  | polling (snap : Dispatch) (ackSec i elapsed : Nat)
  | commitReady (snap : Dispatch) (ackSec i : Nat)
  | done
deriving DecidableEq, Repr

/-- The shared state: the dispatch document, the ride collection (ids are
list positions), the emitted events in order, and the worker. -/
structure Sys where
  disp : Option Dispatch
  rides : List RideRec
  events : List Ev
  w : WState
deriving DecidableEq, Repr

/-- One step of the worker (`worker.js` lines 32-102).
  * `start`: load the dispatch; if missing or not `pending`, the task is a
    no-op (line 36); else enter the loop at `i = currentIndex` (line 38).
  * `loopTop`: if `i < d.candidates.length` (from the stale snapshot), emit
    `ride-offer` to candidate `i` (lines 43-47) and start the poll window;
    otherwise leave the loop and set the dispatch status to `cancelled`
    (line 101).
  * `polling`: while less than `ackSec` seconds have elapsed, re-read the
    dispatch: terminate if it is missing or not `pending` (line 56); move to
    the commit path if candidate `i`'s status is `ack` (line 58); otherwise
    sleep one second.  When the window has elapsed, unconditionally `$set`
    candidate `i`'s status to `timeout`, set `currentIndex := i + 1`
    (line 94) and continue with the next candidate.
  * `commitReady`: re-read the dispatch (line 64; the status is NOT
    re-checked), create the ride with the looked-up fare, `accepted` status
    and a fresh OTP (line 78), update the dispatch to
    `status=assigned, currentIndex=i, rideId` with candidate `i` `assigned`
    (line 79), and emit `ride-offer-accepted` and `ride-assigned`.
The fare lookup result and the OTP draw are the oracle arguments. -/
def wStep (fareLookup : Option ℚ) (otp : String) (s : Sys) : Sys :=
  match s.w with
  | WState.start ackSec =>
      match s.disp with
      | none => { s with w := WState.done }
      | some d =>
          if d.status ≠ DispStatus.pending then { s with w := WState.done }
          else { s with w := WState.loopTop d ackSec d.currentIndex }
  | WState.loopTop snap ackSec i =>
      match snap.candidates.get? i with
      | some c =>
          { s with events := s.events ++ [Ev.rideOffer c.captainId c.etaSec],
                   w := WState.polling snap ackSec i 0 }
      | none =>
          { s with disp := s.disp.map (fun d => { d with status := DispStatus.cancelled }),
                   w := WState.done }
  | WState.polling snap ackSec i elapsed =>
      if elapsed < ackSec then
        match s.disp with
        | none => { s with w := WState.done }
        | some cur =>
            if cur.status ≠ DispStatus.pending then { s with w := WState.done }
            else
              match cur.candidates.get? i with
              | some cand =>
                  if cand.status = CandStatus.ack then
                    { s with w := WState.commitReady snap ackSec i }
                  else { s with w := WState.polling snap ackSec i (elapsed + 1) }
              | none => { s with w := WState.polling snap ackSec i (elapsed + 1) }
      else
        { s with disp := s.disp.map (fun d =>
                   { d with candidates := setCandStatus d.candidates i CandStatus.timeout,
                            currentIndex := i + 1 }),
                 w := WState.loopTop snap ackSec (i + 1) }
  | WState.commitReady _ _ i =>
      match s.disp with
      | none => { s with w := WState.done }
      | some cur =>
          match cur.candidates.get? i with
          | none => { s with w := WState.done }
          | some cand =>
              let fare := workerFare fareLookup
              let rid := s.rides.length
              let ride : RideRec :=
                { id := rid, user := cur.user, captain := some cand.captainId,
                  pickup := cur.pickup, destination := cur.destination,
                  fare := fare, status := RideStatus.accepted, otp := otp }
              let cur' : Dispatch :=
                { cur with status := DispStatus.assigned, currentIndex := i,
                           rideId := some rid,
                           candidates := setCandStatus cur.candidates i CandStatus.assigned }
              { disp := some cur',
                rides := s.rides ++ [ride],
                events := s.events ++ [Ev.rideOfferAccepted rid, Ev.rideAssigned rid],
                w := WState.done }
  | WState.done => s

/-- The `/ack-offer` endpoint running concurrently with the worker: it only
touches the dispatch document, through `ackOffer`. -/
def envAck (cid : Nat) (acc : Bool) (s : Sys) : Sys :=
  { s with disp := (ackOffer s.disp cid acc).2 }

/-- Modelled from the spec: `cancelDispatch` (§4.7) — "sets outcome=cancelled
if outcome=pending".  No cancel-dispatch endpoint exists in the source; this
is the external cancellation the spec's §5 cancellation clause refers to. -/
def envCancel (s : Sys) : Sys :=
  { s with disp := s.disp.map (fun d =>
      if d.status = DispStatus.pending then { d with status := DispStatus.cancelled } else d) }

/-- An interleaving action: one worker step (with its oracle results), one
`/ack-offer` call, or one external cancellation. -/
inductive Act
  | work (fareLookup : Option ℚ) (otp : String)
  | ackReq (captainId : Nat) (accepted : Bool)
  | cancelReq
deriving DecidableEq, Repr

def sysStep (a : Act) (s : Sys) : Sys :=
  match a with
  | Act.work fareLookup otp => wStep fareLookup otp s
  | Act.ackReq cid acc => envAck cid acc s
  | Act.cancelReq => envCancel s

def run (s : Sys) (acts : List Act) : Sys :=
  acts.foldl (fun s a => sysStep a s) s

/-- The system right after `POST /offers/start` persisted the dispatch and
enqueued the offer task: every candidate `pending` (rides-service
`server.js` line 239), dispatch `pending`, no `rideId`, no rides yet. -/
def initSys (d : Dispatch) (ackSec : Nat) : Sys :=
  { disp := some d, rides := [], events := [], w := WState.start ackSec }

/-- The dispatch document created by `POST /offers/start` (rides-service
`server.js` lines 242-250). -/
def freshDispatch (user : Nat) (pickup destination : String)
    (cands : List (Nat × Nat × Option ℚ)) (bestIndex : Int) : Dispatch :=
  { user := user
    pickup := pickup
    destination := destination
    candidates := cands.map (fun c =>
      { captainId := c.1, socketId := c.2.1, etaSec := c.2.2,
        status := CandStatus.pending })
    currentIndex := startCursor bestIndex
    rideId := none
    status := DispStatus.pending }

/-! ### Concrete interleavings -/

/-- A dispatch with one candidate (captain 7, socket 3, ETA 240 s), exactly
as `POST /offers/start` creates it. -/
def oneCandDispatch : Dispatch :=
  freshDispatch 1 "12.97,77.59" "12.90,77.60" [(7, 3, some 240)] 0

/-- A dispatch with two candidates (captains 7 and 8). -/
def twoCandDispatch : Dispatch :=
  freshDispatch 1 "12.97,77.59" "12.90,77.60"
    [(7, 3, some 100), (8, 4, some 200)] 0

/-- Worker runs alone with `ackSec = 1`, candidate 7 never answers: load,
offer, one poll, window elapses, loop exits. -/
def c2final : Sys :=
  run (initSys oneCandDispatch 1) (List.replicate 5 (Act.work none ""))

/-- C2 counterexample: when the offer loop exits with every candidate
exhausted, the worker sets the dispatch status to `cancelled` — the status
enum has no `exhausted` value at all — and emits no `dispatch-failed` event
to anyone; the only event of the whole run is the single `ride-offer`.  (The
"no Ride" part of the claim does hold.) -/
theorem exhausted_run_sets_cancelled_and_emits_no_event :
    c2final.disp.map Dispatch.status = some DispStatus.cancelled ∧
    Ev.dispatchFailed ∉ c2final.events ∧
    c2final.events = [Ev.rideOffer 7 (some 240)] ∧
    c2final.rides = [] := by
  decide

/-- C2 (amended): when the offer loop exits with no assignment (the loop
index has run past the candidate list), the worker's final step writes
status `cancelled` (not `exhausted`, which the schema does not even define)
onto the dispatch, emits no event of any kind, creates no Ride, and
terminates. -/
theorem offerLoop_exhausted_sets_cancelled_no_event
    (s : Sys) (snap : Dispatch) (ackSec i : Nat)
    (fareLookup : Option ℚ) (otp : String)
    (hw : s.w = WState.loopTop snap ackSec i)
    (hi : snap.candidates[i]? = none) :
    (wStep fareLookup otp s).disp =
      s.disp.map (fun d => { d with status := DispStatus.cancelled }) ∧
    (wStep fareLookup otp s).events = s.events ∧
    (wStep fareLookup otp s).rides = s.rides ∧
    (wStep fareLookup otp s).w = WState.done := by
  simp [wStep, hw, hi]

/-- The state of the C2 run just before its final step. -/
def c2beforeExit : Sys :=
  run (initSys oneCandDispatch 1) (List.replicate 4 (Act.work none ""))

/-- Witness for `offerLoop_exhausted_sets_cancelled_no_event`: in the
concrete one-candidate run the loop is at index 1 past the single candidate,
and the step behaves as stated. -/
theorem offerLoop_exhausted_sets_cancelled_no_event_witness :
    c2beforeExit.w = WState.loopTop oneCandDispatch 1 1 ∧
    oneCandDispatch.candidates[1]? = none ∧
    ((wStep none "" c2beforeExit).disp =
       c2beforeExit.disp.map (fun d => { d with status := DispStatus.cancelled }) ∧
     (wStep none "" c2beforeExit).events = c2beforeExit.events ∧
     (wStep none "" c2beforeExit).rides = c2beforeExit.rides ∧
     (wStep none "" c2beforeExit).w = WState.done) :=
  ⟨by decide, by decide,
   offerLoop_exhausted_sets_cancelled_no_event c2beforeExit oneCandDispatch 1 1
     none "" (by decide) (by decide)⟩

/-- Candidate 7 rejects two seconds into a 2-second window. -/
def c4mid : Sys :=
  run (initSys twoCandDispatch 2)
    [Act.work none "", Act.work none "", Act.ackReq 7 false, Act.work none ""]

/-- The same interleaving continued until the worker moves on. -/
def c4final : Sys :=
  run c4mid [Act.work none "", Act.work none "", Act.work none ""]

/-- C4 counterexample: after candidate 0 is `rejected` mid-window, the
worker is still polling the same candidate (it did not end the wait early:
only an `ack` or a non-pending outcome breaks the poll loop), and when the
window elapses it overwrites the candidate's `rejected` label with
`timeout`.  (The cursor advance `0 → 1` and continuing with candidate 1 do
happen.) -/
theorem rejected_candidate_wait_not_cut_short_and_label_overwritten :
    c4mid.disp.map (fun d => d.candidates.map Candidate.status) =
      some [CandStatus.rejected, CandStatus.pending] ∧
    c4mid.w = WState.polling twoCandDispatch 2 0 1 ∧
    c4mid.disp.map Dispatch.currentIndex = some 0 ∧
    c4final.disp.map (fun d => d.candidates.map Candidate.status) =
      some [CandStatus.timeout, CandStatus.pending] ∧
    c4final.disp.map Dispatch.currentIndex = some 1 := by
  decide

/-- C4 (amended): a rejection does not end the ack wait early — a poll that
observes a candidate status other than `ack` on a pending dispatch just
sleeps on (first state) — and when the window elapses the worker
unconditionally overwrites the candidate's status (`rejected` included)
with `timeout`, advances the cursor from `i` to `i + 1`, and continues with
the next candidate (second state). -/
theorem rejection_ignored_until_timeout_then_overwritten
    (s₁ s₂ : Sys) (snap₁ snap₂ : Dispatch) (a₁ a₂ i₁ i₂ e₁ e₂ : Nat)
    (cur : Dispatch) (cand : Candidate)
    (fareLookup : Option ℚ) (otp : String)
    (hw₁ : s₁.w = WState.polling snap₁ a₁ i₁ e₁) (he₁ : e₁ < a₁)
    (hd₁ : s₁.disp = some cur) (hp₁ : cur.status = DispStatus.pending)
    (hc₁ : cur.candidates[i₁]? = some cand)
    (hr₁ : cand.status = CandStatus.rejected)
    (hw₂ : s₂.w = WState.polling snap₂ a₂ i₂ e₂) (he₂ : ¬ e₂ < a₂) :
    wStep fareLookup otp s₁ =
      { s₁ with w := WState.polling snap₁ a₁ i₁ (e₁ + 1) } ∧
    (wStep fareLookup otp s₂).disp = s₂.disp.map (fun d =>
      { d with candidates := setCandStatus d.candidates i₂ CandStatus.timeout,
               currentIndex := i₂ + 1 }) ∧
    (wStep fareLookup otp s₂).w = WState.loopTop snap₂ a₂ (i₂ + 1) := by
  refine ⟨?_, ?_⟩
  · simp [wStep, hw₁, he₁, hd₁, hp₁, hc₁, hr₁]
  · constructor <;> simp [wStep, hw₂, he₂]

/-- The C4 interleaving one step before the timeout write. -/
def c4beforeTimeout : Sys := run c4mid [Act.work none ""]

/-- Witness for `rejection_ignored_until_timeout_then_overwritten`,
instantiating the mid-window state with the rejected candidate and the
end-of-window state from the same concrete interleaving. -/
theorem rejection_ignored_until_timeout_then_overwritten_witness :
    c4mid.w = WState.polling twoCandDispatch 2 0 1 ∧
    (1 : Nat) < 2 ∧
    (wStep none "" c4mid = { c4mid with w := WState.polling twoCandDispatch 2 0 2 } ∧
     (wStep none "" c4beforeTimeout).disp = c4beforeTimeout.disp.map (fun d =>
       { d with candidates := setCandStatus d.candidates 0 CandStatus.timeout,
                currentIndex := 0 + 1 }) ∧
     (wStep none "" c4beforeTimeout).w = WState.loopTop twoCandDispatch 2 (0 + 1)) :=
  ⟨by decide, by decide,
   rejection_ignored_until_timeout_then_overwritten c4mid c4beforeTimeout
     twoCandDispatch twoCandDispatch 2 2 0 0 1 2
     { twoCandDispatch with
       candidates := setCandStatus twoCandDispatch.candidates 0 CandStatus.rejected }
     { captainId := 7, socketId := 3, etaSec := some 100,
       status := CandStatus.rejected }
     none ""
     (by decide) (by decide) (by decide) (by decide) (by decide) (by decide)
     (by decide) (by decide)⟩

/-- Cancellation lands right after the final poll of a 1-second window. -/
def c7cancelled : Sys :=
  run (initSys twoCandDispatch 1)
    [Act.work none "", Act.work none "", Act.work none "", Act.cancelReq]

/-- The worker then takes two more steps. -/
def c7after : Sys := run c7cancelled [Act.work none "", Act.work none ""]

/-- C7 counterexample: after the dispatch outcome became `cancelled`
(non-pending), the worker still modifies the record (it writes `timeout`
onto candidate 0 and advances the cursor) and still emits another
`ride-offer` — the cancellation arrived between the last poll of the window
and the timeout write, where no status check happens. -/
theorem cancelled_dispatch_still_modified_and_offered :
    c7cancelled.disp.map Dispatch.status = some DispStatus.cancelled ∧
    c7cancelled.events = [Ev.rideOffer 7 (some 100)] ∧
    c7after.events = [Ev.rideOffer 7 (some 100), Ev.rideOffer 8 (some 200)] ∧
    c7after.disp ≠ c7cancelled.disp := by
  decide

/-- C7 (amended): a task that loads a missing or non-pending dispatch is a
no-op (it terminates changing nothing), and a worker in its poll window that
re-reads a non-pending dispatch terminates at that poll — i.e. within one
1-second poll period — without touching the record; but there is no status
check between the last poll and the timeout write, nor before emitting the
next offer, so a cancellation landing in that gap does not stop one further
write and one further `ride-offer` (see the counterexample). -/
theorem nonpending_load_noop_and_poll_observes_cancel
    (s₁ s₂ : Sys) (a : Nat) (d : Dispatch)
    (snap : Dispatch) (ackSec i elapsed : Nat) (cur : Dispatch)
    (fareLookup : Option ℚ) (otp : String)
    (hw₁ : s₁.w = WState.start a) (hd₁ : s₁.disp = some d)
    (hp₁ : d.status ≠ DispStatus.pending)
    (hw₂ : s₂.w = WState.polling snap ackSec i elapsed) (he₂ : elapsed < ackSec)
    (hd₂ : s₂.disp = some cur) (hp₂ : cur.status ≠ DispStatus.pending) :
    wStep fareLookup otp s₁ = { s₁ with w := WState.done } ∧
    wStep fareLookup otp s₂ = { s₂ with w := WState.done } := by
  refine ⟨?_, ?_⟩
  · simp [wStep, hw₁, hd₁, hp₁]
  · simp [wStep, hw₂, he₂, hd₂, hp₂]

/-- The same cancellation race with a 2-second window: the worker still has
a poll remaining when the cancel lands. -/
def c7midWindow : Sys :=
  run (initSys twoCandDispatch 2)
    [Act.work none "", Act.work none "", Act.work none "", Act.cancelReq]

/-- A fresh offer task delivered for the already-cancelled dispatch. -/
def c7redelivered : Sys := { c7midWindow with w := WState.start 2 }

/-- Witness for `nonpending_load_noop_and_poll_observes_cancel`: a fresh
task on the already-cancelled dispatch is a no-op, and a mid-window poll on
the cancelled dispatch terminates the waiting worker. -/
theorem nonpending_load_noop_and_poll_observes_cancel_witness :
    c7redelivered.w = WState.start 2 ∧
    c7midWindow.w = WState.polling twoCandDispatch 2 0 1 ∧
    (wStep none "" c7redelivered = { c7redelivered with w := WState.done } ∧
     wStep none "" c7midWindow = { c7midWindow with w := WState.done }) :=
  ⟨by decide, by decide,
   nonpending_load_noop_and_poll_observes_cancel
     c7redelivered c7midWindow 2
     { twoCandDispatch with status := DispStatus.cancelled }
     twoCandDispatch 2 0 1
     { twoCandDispatch with status := DispStatus.cancelled }
     none ""
     (by decide) (by decide) (by decide) (by decide) (by decide) (by decide)
     (by decide)⟩

/-! ### The assignment invariant (C3) -/

theorem setCandStatus_getElem_self (l : List Candidate) (i : Nat)
    (st : CandStatus) (c : Candidate) (h : l[i]? = some c) :
    (setCandStatus l i st)[i]? = some { c with status := st } := by
  induction l generalizing i with
  | nil => simp at h
  | cons a as ih =>
      cases i with
      | zero =>
          simp only [List.getElem?_cons_zero, Option.some.injEq] at h
          subst h
          simp [setCandStatus]
      | succ n =>
          simp only [List.getElem?_cons_succ] at h
          simpa [setCandStatus] using ih n h

theorem setCandStatus_getElem_self_none (l : List Candidate) (i : Nat)
    (st : CandStatus) (h : l[i]? = none) :
    (setCandStatus l i st)[i]? = none := by
  induction l generalizing i with
  | nil => simp [setCandStatus]
  | cons a as ih =>
      cases i with
      | zero => simp at h
      | succ n =>
          simp only [List.getElem?_cons_succ] at h
          simpa [setCandStatus] using ih n h

theorem setCandStatus_getElem_ne (l : List Candidate) (i : Nat)
    (st : CandStatus) (j : Nat) (h : j ≠ i) :
    (setCandStatus l i st)[j]? = l[j]? := by
  induction l generalizing i j with
  | nil => simp [setCandStatus]
  | cons a as ih =>
      cases i with
      | zero =>
          cases j with
          | zero => exact absurd rfl h
          | succ m => simp [setCandStatus]
      | succ n =>
          cases j with
          | zero => simp [setCandStatus]
          | succ m =>
              simp only [setCandStatus, List.getElem?_cons_succ]
              exact ih n m (fun hmn => h (by rw [hmn]))

theorem getElem_append_singleton_self {α : Type} (l : List α) (x : α) :
    (l ++ [x])[l.length]? = some x := by
  induction l with
  | nil => simp
  | cons a as ih =>
      rw [List.cons_append, List.length_cons, List.getElem?_cons_succ]
      exact ih

theorem getElem_append_singleton_lt {α : Type} (l : List α) (x : α)
    (k : Nat) (hk : k < l.length) : (l ++ [x])[k]? = l[k]? := by
  induction l generalizing k with
  | nil => simp at hk
  | cons a as ih =>
      cases k with
      | zero => simp
      | succ m =>
          simp only [List.getElem?_cons_succ, List.cons_append]
          exact ih m (Nat.lt_of_succ_lt_succ hk)

/-- No candidate of `d` carries status `assigned`. -/
def NoAssigned (d : Dispatch) : Prop :=
  ∀ (j : Nat) (c : Candidate),
    d.candidates[j]? = some c → c.status ≠ CandStatus.assigned

/-- The shape the commit write (`worker.js` line 79) leaves behind: exactly
the candidate at the cursor is `assigned`, and `rideId` points at an
existing ride with status `accepted`. -/
def AssignedShape (s : Sys) (d : Dispatch) : Prop :=
  (∀ (j : Nat) (c : Candidate), d.candidates[j]? = some c →
     (c.status = CandStatus.assigned ↔ j = d.currentIndex)) ∧
  (∃ (rid : Nat) (r : RideRec), d.rideId = some rid ∧ s.rides[rid]? = some r ∧
     r.status = RideStatus.accepted)

/-- The inductive system invariant: while the dispatch is not `assigned`, no
candidate is `assigned` and no `rideId` is set; once it is `assigned`, it
has the commit shape and the worker has terminated. -/
def SysInv (s : Sys) : Prop :=
  ∀ d, s.disp = some d →
    (d.status ≠ DispStatus.assigned → NoAssigned d ∧ d.rideId = none) ∧
    (d.status = DispStatus.assigned → AssignedShape s d ∧ s.w = WState.done)

theorem noAssigned_candidates (d d' : Dispatch)
    (hc : d'.candidates = d.candidates) (h : NoAssigned d) : NoAssigned d' := by
  intro j c hcj
  rw [hc] at hcj
  exact h j c hcj

theorem noAssigned_setCandStatus (d : Dispatch) (i : Nat) (st : CandStatus)
    (hst : st ≠ CandStatus.assigned) (h : NoAssigned d) :
    NoAssigned { d with candidates := setCandStatus d.candidates i st } := by
  intro j c hc
  simp only at hc
  by_cases hji : j = i
  · subst hji
    rcases hcell : d.candidates[j]? with _ | c0
    · rw [setCandStatus_getElem_self_none _ _ _ hcell] at hc
      cases hc
    · rw [setCandStatus_getElem_self _ _ _ _ hcell] at hc
      cases hc
      exact hst
  · rw [setCandStatus_getElem_ne _ _ _ _ hji] at hc
    exact h j c hc

theorem assignedShape_rides_eq (s s' : Sys) (d : Dispatch)
    (hr : s'.rides = s.rides) (h : AssignedShape s d) : AssignedShape s' d := by
  refine ⟨h.1, ?_⟩
  obtain ⟨rid, r, h1, h2, h3⟩ := h.2
  exact ⟨rid, r, h1, by rw [hr]; exact h2, h3⟩

/-- Preservation for steps that leave the dispatch and the rides unchanged:
only the worker control point and the event log change, and if the dispatch
is `assigned` the new control point is `done`. -/
theorem sysInv_same_disp_rides (s s' : Sys)
    (hd : s'.disp = s.disp) (hr : s'.rides = s.rides)
    (hwd : ∀ d, s.disp = some d → d.status = DispStatus.assigned →
       s'.w = WState.done)
    (h : SysInv s) : SysInv s' := by
  intro d hdisp
  rw [hd] at hdisp
  have hpre := h d hdisp
  refine ⟨hpre.1, fun ha => ?_⟩
  exact ⟨assignedShape_rides_eq s s' d hr (hpre.2 ha).1, hwd d hdisp ha⟩

/-- Preservation for writes that keep a non-`assigned` dispatch
non-`assigned`, touch no ride, do not set `rideId`, and write no `assigned`
candidate status. -/
theorem sysInv_nonassigned_write (s s' : Sys) (d d' : Dispatch)
    (hd : s.disp = some d) (hd' : s'.disp = some d')
    (_hr : s'.rides = s.rides)
    (hna : d.status ≠ DispStatus.assigned)
    (hna' : d'.status ≠ DispStatus.assigned)
    (hcand : NoAssigned d → NoAssigned d')
    (hrid : d'.rideId = d.rideId)
    (h : SysInv s) : SysInv s' := by
  intro e he
  rw [hd'] at he
  cases he
  have hpre := (h d hd).1 hna
  exact ⟨fun _ => ⟨hcand hpre.1, hrid.trans hpre.2⟩, fun hx => absurd hx hna'⟩

theorem sysInv_wStep (fareLookup : Option ℚ) (otp : String) (s : Sys)
    (h : SysInv s) : SysInv (wStep fareLookup otp s) := by
  cases hw : s.w with
  | start ackSec =>
      rcases hd : s.disp with _ | d
      · have hstep : wStep fareLookup otp s = { s with w := WState.done } := by
          simp [wStep, hw, hd]
        rw [hstep]
        exact sysInv_same_disp_rides s _ rfl rfl (fun _ _ _ => rfl) h
      · by_cases hp : d.status = DispStatus.pending
        · have hstep : wStep fareLookup otp s =
              { s with w := WState.loopTop d ackSec d.currentIndex } := by
            simp [wStep, hw, hd, hp]
          rw [hstep]
          refine sysInv_same_disp_rides s _ rfl rfl (fun e he ha => ?_) h
          rw [hd] at he
          cases he
          rw [hp] at ha
          cases ha
        · have hstep : wStep fareLookup otp s = { s with w := WState.done } := by
            simp [wStep, hw, hd, hp]
          rw [hstep]
          exact sysInv_same_disp_rides s _ rfl rfl (fun _ _ _ => rfl) h
  | loopTop snap ackSec i =>
      have hnotass : ∀ d, s.disp = some d → d.status ≠ DispStatus.assigned := by
        intro d hd ha
        have := ((h d hd).2 ha).2
        rw [hw] at this
        cases this
      rcases hc : snap.candidates[i]? with _ | c
      · have hstep : wStep fareLookup otp s =
            { s with disp := s.disp.map (fun d => { d with status := DispStatus.cancelled }),
                     w := WState.done } := by
          simp [wStep, hw, hc]
        rcases hd : s.disp with _ | d
        · rw [hstep, hd]
          intro e he
          simp at he
        · rw [hstep, hd]
          refine sysInv_nonassigned_write s _ d
            { d with status := DispStatus.cancelled } hd rfl rfl
            (hnotass d hd) (by intro hx; cases hx) ?_ rfl h
          exact fun hNA => noAssigned_candidates d _ rfl hNA
      · have hstep : wStep fareLookup otp s =
            { s with events := s.events ++ [Ev.rideOffer c.captainId c.etaSec],
                     w := WState.polling snap ackSec i 0 } := by
          simp [wStep, hw, hc]
        rw [hstep]
        refine sysInv_same_disp_rides s _ rfl rfl (fun d hd ha => ?_) h
        exact absurd ha (hnotass d hd)
  | polling snap ackSec i elapsed =>
      have hnotass : ∀ d, s.disp = some d → d.status ≠ DispStatus.assigned := by
        intro d hd ha
        have := ((h d hd).2 ha).2
        rw [hw] at this
        cases this
      by_cases he : elapsed < ackSec
      · rcases hd : s.disp with _ | cur
        · have hstep : wStep fareLookup otp s = { s with w := WState.done } := by
            simp [wStep, hw, he, hd]
          rw [hstep]
          exact sysInv_same_disp_rides s _ rfl rfl (fun _ _ _ => rfl) h
        · by_cases hp : cur.status = DispStatus.pending
          · rcases hcand : cur.candidates[i]? with _ | cand
            · have hstep : wStep fareLookup otp s =
                  { s with w := WState.polling snap ackSec i (elapsed + 1) } := by
                simp [wStep, hw, he, hd, hp, hcand]
              rw [hstep]
              refine sysInv_same_disp_rides s _ rfl rfl (fun d hdx ha => ?_) h
              exact absurd ha (hnotass d hdx)
            · by_cases hack : cand.status = CandStatus.ack
              · have hstep : wStep fareLookup otp s =
                    { s with w := WState.commitReady snap ackSec i } := by
                  simp [wStep, hw, he, hd, hp, hcand, hack]
                rw [hstep]
                refine sysInv_same_disp_rides s _ rfl rfl (fun d hdx ha => ?_) h
                exact absurd ha (hnotass d hdx)
              · have hstep : wStep fareLookup otp s =
                    { s with w := WState.polling snap ackSec i (elapsed + 1) } := by
                  simp [wStep, hw, he, hd, hp, hcand, hack]
                rw [hstep]
                refine sysInv_same_disp_rides s _ rfl rfl (fun d hdx ha => ?_) h
                exact absurd ha (hnotass d hdx)
          · have hstep : wStep fareLookup otp s = { s with w := WState.done } := by
              simp [wStep, hw, he, hd, hp]
            rw [hstep]
            exact sysInv_same_disp_rides s _ rfl rfl (fun _ _ _ => rfl) h
      · have hstep : wStep fareLookup otp s =
            { s with disp := s.disp.map (fun d => { d with candidates := setCandStatus d.candidates i CandStatus.timeout, currentIndex := i + 1 }),
                     w := WState.loopTop snap ackSec (i + 1) } := by
          simp [wStep, hw, he]
        rcases hd : s.disp with _ | d
        · rw [hstep, hd]
          intro e hex
          simp at hex
        · rw [hstep, hd]
          refine sysInv_nonassigned_write s _ d
            { d with candidates := setCandStatus d.candidates i CandStatus.timeout, currentIndex := i + 1 }
            hd rfl rfl (hnotass d hd) (hnotass d hd) ?_ rfl h
          intro hNA
          exact noAssigned_candidates _ _ rfl
            (noAssigned_setCandStatus d i CandStatus.timeout (by intro hx; cases hx) hNA)
  | commitReady snap ackSec i =>
      have hnotass : ∀ d, s.disp = some d → d.status ≠ DispStatus.assigned := by
        intro d hd ha
        have := ((h d hd).2 ha).2
        rw [hw] at this
        cases this
      rcases hd : s.disp with _ | cur
      · have hstep : wStep fareLookup otp s = { s with w := WState.done } := by
          simp [wStep, hw, hd]
        rw [hstep]
        exact sysInv_same_disp_rides s _ rfl rfl (fun _ _ _ => rfl) h
      · rcases hcand : cur.candidates[i]? with _ | cand
        · have hstep : wStep fareLookup otp s = { s with w := WState.done } := by
            simp [wStep, hw, hd, hcand]
          rw [hstep]
          exact sysInv_same_disp_rides s _ rfl rfl (fun _ _ _ => rfl) h
        · have hNA : NoAssigned cur := ((h cur hd).1 (hnotass cur hd)).1
          have hstep : wStep fareLookup otp s =
              { disp := some { cur with status := DispStatus.assigned, currentIndex := i, rideId := some s.rides.length, candidates := setCandStatus cur.candidates i CandStatus.assigned },
                rides := s.rides ++ [{ id := s.rides.length, user := cur.user, captain := some cand.captainId, pickup := cur.pickup, destination := cur.destination, fare := workerFare fareLookup, status := RideStatus.accepted, otp := otp }],
                events := s.events ++ [Ev.rideOfferAccepted s.rides.length, Ev.rideAssigned s.rides.length],
                w := WState.done } := by
            simp [wStep, hw, hd, hcand]
          rw [hstep]
          intro e he
          simp only [Option.some.injEq] at he
          cases he
          constructor
          · intro hne
            exact absurd rfl hne
          · intro _
            refine ⟨⟨?_, ?_⟩, rfl⟩
            · intro j c hcj
              simp only at hcj ⊢
              by_cases hji : j = i
              · subst hji
                rw [setCandStatus_getElem_self _ _ _ _ hcand] at hcj
                cases hcj
                simp
              · rw [setCandStatus_getElem_ne _ _ _ _ hji] at hcj
                simp only [hji, iff_false]
                exact hNA j c hcj
            · exact ⟨s.rides.length, _, rfl, getElem_append_singleton_self s.rides _, rfl⟩
  | done =>
      have hstep : wStep fareLookup otp s = s := by
        simp [wStep, hw]
      rw [hstep]
      exact h

theorem sysInv_envAck (cid : Nat) (acc : Bool) (s : Sys)
    (h : SysInv s) : SysInv (envAck cid acc s) := by
  rcases hd : s.disp with _ | d
  · have hstep : envAck cid acc s = s := by
      simp [envAck, ackOffer, hd]
      rw [← hd]
    rw [hstep]
    exact h
  · by_cases hp : d.status = DispStatus.pending
    · rcases hf : findCandIdx d.candidates cid with _ | idx
      · have hstep : envAck cid acc s = s := by
          simp [envAck, ackOffer, hd, hp, hf]
          rw [← hd]
        rw [hstep]
        exact h
      · have hstep : envAck cid acc s =
            { s with disp := some { d with candidates := setCandStatus d.candidates idx (if acc then CandStatus.ack else CandStatus.rejected) } } := by
          simp [envAck, ackOffer, hd, hp, hf]
        rw [hstep]
        have hpd : d.status ≠ DispStatus.assigned := by
          rw [hp]; intro hx; cases hx
        refine sysInv_nonassigned_write s _ d _ hd rfl rfl hpd ?_ ?_ rfl h
        · simp only
          rw [hp]; intro hx; cases hx
        · intro hNA
          refine noAssigned_candidates _ _ rfl (noAssigned_setCandStatus d idx _ ?_ hNA)
          by_cases hacc : acc <;> simp [hacc]
    · have hstep : envAck cid acc s = s := by
        simp [envAck, ackOffer, hd, hp]
        rw [← hd]
      rw [hstep]
      exact h

theorem sysInv_envCancel (s : Sys) (h : SysInv s) : SysInv (envCancel s) := by
  rcases hd : s.disp with _ | d
  · have hstep : envCancel s = s := by
      simp [envCancel, hd]
      rw [← hd]
    rw [hstep]
    exact h
  · by_cases hp : d.status = DispStatus.pending
    · have hstep : envCancel s =
          { s with disp := some { d with status := DispStatus.cancelled } } := by
        simp [envCancel, hd, hp]
      rw [hstep]
      refine sysInv_nonassigned_write s _ d _ hd rfl rfl ?_ ?_ ?_ rfl h
      · rw [hp]; intro hx; cases hx
      · intro hx; cases hx
      · exact fun hNA => noAssigned_candidates _ _ rfl hNA
    · have hstep : envCancel s = s := by
        simp [envCancel, hd, hp]
        rw [← hd]
      rw [hstep]
      exact h

theorem sysInv_step (a : Act) (s : Sys) (h : SysInv s) :
    SysInv (sysStep a s) := by
  cases a with
  | work fareLookup otp => exact sysInv_wStep fareLookup otp s h
  | ackReq cid acc => exact sysInv_envAck cid acc s h
  | cancelReq => exact sysInv_envCancel s h

theorem sysInv_run (acts : List Act) (s : Sys) (h : SysInv s) :
    SysInv (run s acts) := by
  induction acts generalizing s with
  | nil => exact h
  | cons a rest ih => exact ih (sysStep a s) (sysInv_step a s h)

/-- Every candidate of a dispatch built by `POST /offers/start` starts with
status `pending`. -/
theorem freshDispatch_candidate_pending (user : Nat)
    (pickup destination : String) (cands : List (Nat × Nat × Option ℚ))
    (bestIndex : Int) :
    ∀ (j : Nat) (c : Candidate),
      (freshDispatch user pickup destination cands bestIndex).candidates[j]? = some c →
      c.status = CandStatus.pending := by
  show ∀ (j : Nat) (c : Candidate),
      (cands.map fun c => ({ captainId := c.1, socketId := c.2.1, etaSec := c.2.2, status := CandStatus.pending } : Candidate))[j]? = some c →
      c.status = CandStatus.pending
  induction cands with
  | nil => intro j c hc; simp at hc
  | cons a as ih =>
      intro j c hc
      cases j with
      | zero =>
          rw [List.map_cons, List.getElem?_cons_zero] at hc
          injection hc with h
          subst h
          rfl
      | succ n =>
          rw [List.map_cons, List.getElem?_cons_succ] at hc
          exact ih n c hc

/-- C3: starting from a dispatch exactly as `POST /offers/start` creates it
(every candidate `pending`, status `pending`, no `rideId`), after any
interleaving of worker steps, `/ack-offer` calls and external cancellations,
whenever the dispatch has outcome `assigned`, a candidate has status
`assigned` precisely when its index is the cursor (so exactly one is, and
its index equals the cursor written at commit), and `rideId` refers to an
existing ride whose status is `accepted`. -/
theorem assigned_dispatch_unique_candidate_and_ride
    (user : Nat) (pickup destination : String)
    (cands : List (Nat × Nat × Option ℚ)) (bestIndex : Int)
    (ackSec : Nat) (acts : List Act) :
    ∀ d, (run (initSys (freshDispatch user pickup destination cands bestIndex) ackSec) acts).disp = some d →
      d.status = DispStatus.assigned →
      (∀ (j : Nat) (c : Candidate), d.candidates[j]? = some c →
         (c.status = CandStatus.assigned ↔ j = d.currentIndex)) ∧
      (∃ (rid : Nat) (r : RideRec), d.rideId = some rid ∧
         (run (initSys (freshDispatch user pickup destination cands bestIndex) ackSec) acts).rides[rid]? = some r ∧
         r.status = RideStatus.accepted) := by
  set d0 := freshDispatch user pickup destination cands bestIndex with hd0
  have h0 : SysInv (initSys d0 ackSec) := by
    intro d hd
    simp [initSys] at hd
    subst hd
    constructor
    · intro _
      refine ⟨fun j c hc => ?_, rfl⟩
      rw [freshDispatch_candidate_pending user pickup destination cands bestIndex j c hc]
      intro hx; cases hx
    · intro ha
      cases ha
  have hfin := sysInv_run acts (initSys d0 ackSec) h0
  intro d hd ha
  exact ⟨((hfin d hd).2 ha).1.1, ((hfin d hd).2 ha).1.2⟩

/-- An interleaving in which candidate 7 acks within the window and the
worker commits. -/
def c3acts : List Act :=
  [Act.work none "", Act.work none "", Act.ackReq 7 true,
   Act.work none "", Act.work (some 120) "314159"]

def c3final : Sys := run (initSys oneCandDispatch 30) c3acts

/-- The dispatch document as the commit of the `c3acts` interleaving leaves
it. -/
def c3assignedDispatch : Dispatch :=
  { user := 1
    pickup := "12.97,77.59"
    destination := "12.90,77.60"
    candidates := [{ captainId := 7, socketId := 3, etaSec := some 240,
                     status := CandStatus.assigned }]
    currentIndex := 0
    rideId := some 0
    status := DispStatus.assigned }

/-- Witness for `assigned_dispatch_unique_candidate_and_ride`: the concrete
ack-and-commit interleaving ends with this `assigned` dispatch, and the
theorem applied there yields the unique assigned candidate at the cursor
plus the `accepted` ride behind `rideId`. -/
theorem assigned_dispatch_unique_candidate_and_ride_witness :
    c3final.disp = some c3assignedDispatch ∧
    c3assignedDispatch.status = DispStatus.assigned ∧
    ((∀ (j : Nat) (c : Candidate), c3assignedDispatch.candidates[j]? = some c →
        (c.status = CandStatus.assigned ↔ j = c3assignedDispatch.currentIndex)) ∧
     (∃ (rid : Nat) (r : RideRec), c3assignedDispatch.rideId = some rid ∧
        c3final.rides[rid]? = some r ∧ r.status = RideStatus.accepted)) :=
  ⟨by decide, by decide,
   assigned_dispatch_unique_candidate_and_ride 1 "12.97,77.59" "12.90,77.60"
     [(7, 3, some 240)] 0 30 c3acts c3assignedDispatch (by decide) (by decide)⟩

/-! ### `POST /offers/start` vs `POST /create` idempotency (C8) -/

/-- Request data of `POST /offers/start`: the rider from the JWT, the body
fields, and the optional `Idempotency-Key` header. -/
structure StartReq where
  user : Nat
  pickup : String
  destination : String
  vehicleType : Option String
  idemKey : Option String
  ackSec : Nat
deriving DecidableEq, Repr

/-- An entry of the `ride_offers` BullMQ queue (`offersQueue.add`,
rides-service `server.js` line 253). -/
structure OfferTask where
  dispatchId : Nat
  ackSec : Nat
deriving DecidableEq, Repr

/-- The state `POST /offers/start` touches: the dispatch collection (ids are
creation positions) and the offers queue. -/
structure OffersStore where
  dispatches : List Dispatch
  tasks : List OfferTask
deriving DecidableEq, Repr

/-- `POST /offers/start` (rides-service `server.js` lines 212-260): after
computing candidates it unconditionally `create`s a new dispatch document
and enqueues a new offer task.  The handler never reads the
`Idempotency-Key` header and performs no cache lookup of any kind —
`getIdemKey` is used only by `POST /create`. -/
def startOffers (st : OffersStore) (req : StartReq)
    (cands : List (Nat × Nat × Option ℚ)) (bestIndex : Int) :
    Nat × OffersStore :=
  let id := st.dispatches.length
  let d := freshDispatch req.user req.pickup req.destination cands bestIndex
  (id, { dispatches := st.dispatches ++ [d],
         tasks := st.tasks ++ [{ dispatchId := id, ackSec := req.ackSec }] })

/-- A concrete `POST /offers/start` request carrying an idempotency key. -/
def idemStartReq : StartReq :=
  { user := 1, pickup := "12.97,77.59", destination := "12.90,77.60",
    vehicleType := some "car", idemKey := some "key-1", ackSec := 30 }

/-- C8 counterexample: two identical `POST /offers/start` requests carrying
the same `Idempotency-Key` return different dispatch ids, and the second one
creates a second Dispatch and enqueues a second offer task. -/
theorem duplicate_startDispatch_creates_two_dispatches :
    (startOffers { dispatches := [], tasks := [] } idemStartReq [(7, 3, some 240)] 0).1 ≠
      (startOffers (startOffers { dispatches := [], tasks := [] } idemStartReq [(7, 3, some 240)] 0).2
        idemStartReq [(7, 3, some 240)] 0).1 ∧
    (startOffers (startOffers { dispatches := [], tasks := [] } idemStartReq [(7, 3, some 240)] 0).2
        idemStartReq [(7, 3, some 240)] 0).2.dispatches.length = 2 ∧
    (startOffers (startOffers { dispatches := [], tasks := [] } idemStartReq [(7, 3, some 240)] 0).2
        idemStartReq [(7, 3, some 240)] 0).2.tasks.length = 2 := by
  decide

/-- The idempotency key built by `getIdemKey` (rides-service `server.js`
lines 434-441): the client `Idempotency-Key` verbatim when present,
otherwise the SHA-256 fingerprint of `{pickup, destination, vehicleType}`;
both are scoped by the rider id.  The hash is embedded as the injectively
paired fingerprint itself. -/
inductive IdemKey
  | client (user : Nat) (key : String)
  | fingerprint (user : Nat) (pickup destination : String)
      (vehicleType : Option String)
deriving DecidableEq, Repr

def getIdemKey (user : Nat) (idemHeader : Option String)
    (pickup destination : String) (vehicleType : Option String) : IdemKey :=
  match idemHeader with
  | some k => IdemKey.client user k
  | none => IdemKey.fingerprint user pickup destination vehicleType

/-- Vehicle types accepted by `POST /create`'s validator
(`isIn(['auto','car','moto'])`, line 446). -/
inductive VehicleT
  | auto | car | moto
deriving DecidableEq, Repr

/-- `baseFare` table of `POST /create` (line 460). -/
def baseFare : VehicleT → ℚ
  | VehicleT.auto => 30
  | VehicleT.car => 50
  | VehicleT.moto => 20

/-- `perKmRate` table (line 461). -/
def perKmRate : VehicleT → ℚ
  | VehicleT.auto => 10
  | VehicleT.car => 15
  | VehicleT.moto => 8

/-- `perMinuteRate` table (line 462). -/
def perMinuteRate : VehicleT → ℚ
  | VehicleT.auto => 2
  | VehicleT.car => 3
  | VehicleT.moto => 3 / 2

/-- JavaScript `Math.round` on the nonnegative values that reach it:
`⌊x + 1/2⌋`. -/
def jsRound (q : ℚ) : Int := ⌊q + 1 / 2⌋

/-- The fare computed by `POST /create` (lines 463-464):
`Math.round((base + km·perKm + min·perMinute) * surge)`. -/
def createFare (vt : VehicleT) (distanceMeters durationSec surge : ℚ) : Int :=
  jsRound ((baseFare vt + distanceMeters / 1000 * perKmRate vt +
            durationSec / 60 * perMinuteRate vt) * surge)

/-- The state `POST /create` touches: the ride collection and the Redis
idempotency cache (`idem:rides:create:*` keys, TTL 3600 s — expiry within
the TTL window is not modelled). -/
structure CreateStore where
  rides : List RideRec
  cache : List (IdemKey × RideRec)
deriving DecidableEq, Repr

def cacheLookup (c : List (IdemKey × RideRec)) (k : IdemKey) :
    Option RideRec :=
  match c.find? (fun e => e.1 == k) with
  | some e => some e.2
  | none => none

/-- `POST /create` (lines 443-470): build the idempotency key; on a cache
hit return the cached response and write nothing; otherwise compute the
fare, create the ride (status defaults to `pending`, no captain yet) with a
fresh 6-digit OTP, cache the response under the key, and return it.  The
distance/duration/surge of the upstream calls and the OTP draw are
parameters. -/
def createRide (st : CreateStore) (user : Nat) (idemHeader : Option String)
    (pickup destination : String) (vt : VehicleT)
    (distanceMeters durationSec surge : ℚ) (otp : String) :
    RideRec × CreateStore :=
  let key := getIdemKey user idemHeader pickup destination
    (some (match vt with
           | VehicleT.auto => "auto"
           | VehicleT.car => "car"
           | VehicleT.moto => "moto"))
  match cacheLookup st.cache key with
  | some out => (out, st)
  | none =>
      let ride : RideRec :=
        { id := st.rides.length, user := user, captain := none,
          pickup := pickup, destination := destination,
          fare := ((createFare vt distanceMeters durationSec surge : Int) : ℚ),
          status := RideStatus.pending, otp := otp }
      (ride, { rides := st.rides ++ [ride], cache := st.cache ++ [(key, ride)] })

theorem cacheLookup_append_self (c : List (IdemKey × RideRec)) (k : IdemKey)
    (r : RideRec) (h : cacheLookup c k = none) :
    cacheLookup (c ++ [(k, r)]) k = some r := by
  induction c with
  | nil => simp [cacheLookup, List.find?]
  | cons e es ih =>
      unfold cacheLookup at h ⊢
      rw [List.find?_cons] at h
      rw [List.cons_append, List.find?_cons]
      cases he : (e.1 == k) with
      | true =>
          rw [he] at h
          simp at h
      | false =>
          rw [he] at h
          exact ih h

/-- C8 (amended): `POST /offers/start` is not idempotent — every request,
with or without an `Idempotency-Key`, creates a fresh Dispatch with a new id
and enqueues a fresh offer task, so two identical requests yield two
distinct dispatch ids, two Dispatches and two tasks.  The key-based
deduplication with the one-hour TTL exists only on `POST /create`: there a
second request with the same key (and no intervening expiry) returns the
response cached by the first and creates no second Ride. -/
theorem startOffers_always_creates_but_create_deduplicates
    (st : OffersStore) (req : StartReq)
    (cands : List (Nat × Nat × Option ℚ)) (bestIndex : Int)
    (cst : CreateStore) (user : Nat) (key : String)
    (pickup destination : String) (vt : VehicleT)
    (d1 t1 s1 d2 t2 s2 : ℚ) (otp1 otp2 : String)
    (hmiss : cacheLookup cst.cache
      (getIdemKey user (some key) pickup destination
        (some (match vt with
               | VehicleT.auto => "auto"
               | VehicleT.car => "car"
               | VehicleT.moto => "moto"))) = none) :
    ((startOffers st req cands bestIndex).1 ≠
       (startOffers (startOffers st req cands bestIndex).2 req cands bestIndex).1 ∧
     (startOffers (startOffers st req cands bestIndex).2 req cands bestIndex).2.dispatches.length =
       st.dispatches.length + 2 ∧
     (startOffers (startOffers st req cands bestIndex).2 req cands bestIndex).2.tasks.length =
       st.tasks.length + 2) ∧
    ((createRide (createRide cst user (some key) pickup destination vt d1 t1 s1 otp1).2
        user (some key) pickup destination vt d2 t2 s2 otp2).1 =
       (createRide cst user (some key) pickup destination vt d1 t1 s1 otp1).1 ∧
     (createRide (createRide cst user (some key) pickup destination vt d1 t1 s1 otp1).2
        user (some key) pickup destination vt d2 t2 s2 otp2).2.rides =
       (createRide cst user (some key) pickup destination vt d1 t1 s1 otp1).2.rides) := by
  constructor
  · refine ⟨?_, ?_, ?_⟩
    · simp [startOffers]
    · simp [startOffers]
    · simp [startOffers]
  · constructor
    · simp [createRide, hmiss, cacheLookup_append_self]
    · simp [createRide, hmiss, cacheLookup_append_self]

/-- Witness for `startOffers_always_creates_but_create_deduplicates` at an
empty store: the cache-miss hypothesis holds trivially and both conclusions
follow. -/
theorem startOffers_always_creates_but_create_deduplicates_witness :
    cacheLookup ({ rides := [], cache := [] } : CreateStore).cache
      (getIdemKey 1 (some "key-1") "A" "B"
        (some (match VehicleT.car with
               | VehicleT.auto => "auto"
               | VehicleT.car => "car"
               | VehicleT.moto => "moto"))) = none ∧
    (((startOffers { dispatches := [], tasks := [] } idemStartReq [] 0).1 ≠
       (startOffers (startOffers { dispatches := [], tasks := [] } idemStartReq [] 0).2 idemStartReq [] 0).1 ∧
      (startOffers (startOffers { dispatches := [], tasks := [] } idemStartReq [] 0).2 idemStartReq [] 0).2.dispatches.length =
        ({ dispatches := [], tasks := [] } : OffersStore).dispatches.length + 2 ∧
      (startOffers (startOffers { dispatches := [], tasks := [] } idemStartReq [] 0).2 idemStartReq [] 0).2.tasks.length =
        ({ dispatches := [], tasks := [] } : OffersStore).tasks.length + 2) ∧
     ((createRide (createRide { rides := [], cache := [] } 1 (some "key-1") "A" "B" VehicleT.car 5000 900 1 "111111").2
        1 (some "key-1") "A" "B" VehicleT.car 6000 1000 (3/2) "222222").1 =
       (createRide { rides := [], cache := [] } 1 (some "key-1") "A" "B" VehicleT.car 5000 900 1 "111111").1 ∧
      (createRide (createRide { rides := [], cache := [] } 1 (some "key-1") "A" "B" VehicleT.car 5000 900 1 "111111").2
        1 (some "key-1") "A" "B" VehicleT.car 6000 1000 (3/2) "222222").2.rides =
       (createRide { rides := [], cache := [] } 1 (some "key-1") "A" "B" VehicleT.car 5000 900 1 "111111").2.rides)) :=
  ⟨by decide,
   startOffers_always_creates_but_create_deduplicates
     { dispatches := [], tasks := [] } idemStartReq [] 0
     { rides := [], cache := [] } 1 "key-1" "A" "B" VehicleT.car
     5000 900 1 6000 1000 (3/2) "111111" "222222" (by decide)⟩

/-! ### Ride fares (C9) -/

/-- The interleaving of the C3 scenario, but the worker's `/get-fare` call
fails at commit time (`fareLookup = none`). -/
def c9final : Sys :=
  run (initSys oneCandDispatch 30)
    [Act.work none "", Act.work none "", Act.ackReq 7 true,
     Act.work none "", Act.work none "777777"]

/-- C9 counterexample: when the worker's `/get-fare` request fails, the
ride is materialised with `fare = 0` (the `catch` swallows the error and
`fare` keeps its `0` initialiser), violating `fare > 0` at creation. -/
theorem worker_ride_created_with_zero_fare :
    c9final.rides.map RideRec.fare = [0] ∧
    c9final.rides.map RideRec.status = [RideStatus.accepted] ∧
    c9final.disp.map Dispatch.status = some DispStatus.assigned := by
  decide

/-- The state of the `c9final` interleaving just before the commit step. -/
def c9beforeCommit : Sys :=
  run (initSys oneCandDispatch 30)
    [Act.work none "", Act.work none "", Act.ackReq 7 true, Act.work none ""]

/-- The dispatch document the commit step of `c9final` re-reads. -/
def c9curDispatch : Dispatch :=
  { oneCandDispatch with
    candidates := setCandStatus oneCandDispatch.candidates 0 CandStatus.ack }

/-- C9 (amended): rides created via `POST /create` have a positive fare
whenever the distance and duration are nonnegative and the surge factor is
at least 1 (the default configuration's minimum — `Math.round(q·surge)`
with `q ≥ 20`); but rides materialised by the dispatcher worker carry
`fare = fr.data?.[vt] || 0`, which is `0` whenever the `/get-fare` call
fails or returns no entry for the vehicle type — the commit step creates
the ride with exactly `workerFare lookup`, and `workerFare none = 0`. -/
theorem create_fare_positive_but_worker_fare_can_be_zero
    (vt : VehicleT) (distanceMeters durationSec surge : ℚ)
    (hd : 0 ≤ distanceMeters) (ht : 0 ≤ durationSec) (hs : 1 ≤ surge)
    (s : Sys) (snap cur : Dispatch) (ackSec i : Nat) (cand : Candidate)
    (lookup : Option ℚ) (otp : String)
    (hw : s.w = WState.commitReady snap ackSec i)
    (hdisp : s.disp = some cur) (hcand : cur.candidates[i]? = some cand) :
    0 < createFare vt distanceMeters durationSec surge ∧
    workerFare none = 0 ∧
    (wStep lookup otp s).rides = s.rides ++
      [{ id := s.rides.length, user := cur.user, captain := some cand.captainId,
         pickup := cur.pickup, destination := cur.destination,
         fare := workerFare lookup, status := RideStatus.accepted, otp := otp }] := by
  refine ⟨?_, rfl, ?_⟩
  · unfold createFare jsRound
    have hbase : (20 : ℚ) ≤ baseFare vt := by
      cases vt <;> norm_num [baseFare]
    have hkm : 0 ≤ distanceMeters / 1000 * perKmRate vt := by
      apply mul_nonneg (div_nonneg hd (by norm_num))
      cases vt <;> norm_num [perKmRate]
    have hmin : 0 ≤ durationSec / 60 * perMinuteRate vt := by
      apply mul_nonneg (div_nonneg ht (by norm_num))
      cases vt <;> norm_num [perMinuteRate]
    have hq : (20 : ℚ) ≤ baseFare vt + distanceMeters / 1000 * perKmRate vt +
        durationSec / 60 * perMinuteRate vt := by linarith
    have hq0 : (0 : ℚ) ≤ baseFare vt + distanceMeters / 1000 * perKmRate vt +
        durationSec / 60 * perMinuteRate vt := by linarith
    have hqs : (20 : ℚ) ≤ (baseFare vt + distanceMeters / 1000 * perKmRate vt +
        durationSec / 60 * perMinuteRate vt) * surge := by
      calc (20 : ℚ) ≤ (baseFare vt + distanceMeters / 1000 * perKmRate vt +
            durationSec / 60 * perMinuteRate vt) * 1 := by linarith
        _ ≤ (baseFare vt + distanceMeters / 1000 * perKmRate vt +
            durationSec / 60 * perMinuteRate vt) * surge :=
          mul_le_mul_of_nonneg_left hs hq0
    have h1 : (1 : ℤ) ≤ ⌊(baseFare vt + distanceMeters / 1000 * perKmRate vt +
        durationSec / 60 * perMinuteRate vt) * surge + 1 / 2⌋ := by
      apply Int.le_floor.mpr
      push_cast
      linarith
    omega
  · simp [wStep, hw, hdisp, hcand]

/-- Witness for `create_fare_positive_but_worker_fare_can_be_zero`: a 5 km,
15 min car ride at surge 1, and the concrete pre-commit state of the
zero-fare interleaving. -/
theorem create_fare_positive_but_worker_fare_can_be_zero_witness :
    (0 : ℚ) ≤ 5000 ∧ (0 : ℚ) ≤ 900 ∧ (1 : ℚ) ≤ 1 ∧
    c9beforeCommit.w = WState.commitReady oneCandDispatch 30 0 ∧
    c9beforeCommit.disp = some c9curDispatch ∧
    c9curDispatch.candidates[0]? = some
      { captainId := 7, socketId := 3, etaSec := some 240,
        status := CandStatus.ack } ∧
    (0 < createFare VehicleT.car 5000 900 1 ∧
     workerFare none = 0 ∧
     (wStep none "777777" c9beforeCommit).rides = c9beforeCommit.rides ++
       [{ id := c9beforeCommit.rides.length, user := c9curDispatch.user,
          captain := some 7, pickup := c9curDispatch.pickup,
          destination := c9curDispatch.destination, fare := workerFare none,
          status := RideStatus.accepted, otp := "777777" }]) :=
  ⟨by norm_num, by norm_num, le_refl 1, by decide, by decide, by decide,
   create_fare_positive_but_worker_fare_can_be_zero VehicleT.car 5000 900 1
     (by norm_num) (by norm_num) (le_refl 1) c9beforeCommit oneCandDispatch
     c9curDispatch 30 0
     { captainId := 7, socketId := 3, etaSec := some 240,
       status := CandStatus.ack }
     none "777777" (by decide) (by decide) (by decide)⟩

/-! ### OTP in the `/confirm` and `/start-ride` responses (C10) -/

/-- A ride document as serialised into an HTTP response (`ride.toObject()`
after the nested password deletions): the `otp` field is present only when
the document was read under an explicit `select('+otp')`, because the
schema declares `otp` with `select:false` (rides-service `server.js`
line 72), so default reads exclude it. -/
structure RideView where
  id : Nat
  user : Nat
  captain : Option Nat
  pickup : String
  destination : String
  fare : ℚ
  status : RideStatus
  otp : Option String
deriving DecidableEq, Repr

/-- Serialise a ride read with (`includeOtp = true`) or without an explicit
`select('+otp')`. -/
def rideView (r : RideRec) (includeOtp : Bool) : RideView :=
  { id := r.id, user := r.user, captain := r.captain, pickup := r.pickup,
    destination := r.destination, fare := r.fare, status := r.status,
    otp := if includeOtp then some r.otp else none }

/-- `Ride.findById(rideId)`. -/
def findRide (rides : List RideRec) (rideId : Nat) : Option RideRec :=
  rides.find? (fun r => r.id == rideId)

/-- `POST /confirm` (rides-service `server.js` lines 472-491):
`findByIdAndUpdate` sets the ride `accepted` with the caller as captain (no
precondition on the current status), the ride is re-read WITH
`select('+otp')`, only the nested user/captain password fields are deleted,
and the object is returned — so the response carries the OTP.  A missing
ride makes `ride.toObject()` throw, i.e. a 500 with no ride in the
response (`none` here). -/
def confirmRide (rides : List RideRec) (rideId : Nat) (captainId : Nat) :
    Option RideView × List RideRec :=
  let rides' := rides.map (fun x =>
    if x.id == rideId then { x with status := RideStatus.accepted, captain := some captainId } else x)
  match findRide rides' rideId with
  | none => (none, rides')
  | some r2 => (some (rideView r2 true), rides')

/-- `GET /start-ride` (rides-service `server.js` lines 494-517): read with
`select('+otp')`; 404 when absent; 400 unless the status is `accepted` and
the supplied OTP matches; then set the status `ongoing` — the response is
built from the pre-update read (still showing `accepted`) and carries the
OTP. -/
def startRide (rides : List RideRec) (rideId : Nat) (otp : String) :
    Option RideView × List RideRec :=
  match findRide rides rideId with
  | none => (none, rides)
  | some r =>
      if r.status ≠ RideStatus.accepted then (none, rides)
      else if r.otp ≠ otp then (none, rides)
      else
        let rides' := rides.map (fun x =>
          if x.id == rideId then { x with status := RideStatus.ongoing } else x)
        (some (rideView r true), rides')

theorem findRide_map_update (rides : List RideRec) (rideId : Nat)
    (upd : RideRec → RideRec) (hid : ∀ x, (upd x).id = x.id)
    (r : RideRec) (h : findRide rides rideId = some r) :
    findRide (rides.map (fun x => if x.id == rideId then upd x else x))
      rideId = some (upd r) := by
  induction rides with
  | nil => simp [findRide, List.find?] at h
  | cons a as ih =>
      unfold findRide at h ⊢
      rw [List.find?_cons] at h
      rw [List.map_cons, List.find?_cons]
      cases ha : (a.id == rideId) with
      | true =>
          rw [ha] at h
          injection h with h2
          subst h2
          simp [ha, hid a]
      | false =>
          rw [ha] at h
          simp only [ha, Bool.false_eq_true, if_false]
          exact ih h

/-- C10: the ride objects returned by `POST /confirm` and `GET /start-ride`
include the `otp` field: both handlers read the ride under an explicit
`select('+otp')` and serialise it without removing the OTP, while a default
read (no `'+otp'`) excludes it per the schema's `select:false`. -/
theorem confirm_and_start_ride_responses_include_otp
    (rides : List RideRec) (rideId captainId : Nat) (r : RideRec)
    (otp : String) (hfind : findRide rides rideId = some r)
    (hstat : r.status = RideStatus.accepted) (hotp : r.otp = otp) :
    (∃ v, (confirmRide rides rideId captainId).1 = some v ∧
       v.otp = some r.otp) ∧
    (∃ v, (startRide rides rideId otp).1 = some v ∧ v.otp = some r.otp) ∧
    (rideView r false).otp = none := by
  refine ⟨?_, ?_, rfl⟩
  · have h2 := findRide_map_update rides rideId
      (fun x => { x with status := RideStatus.accepted, captain := some captainId })
      (fun _ => rfl) r hfind
    refine ⟨rideView { r with status := RideStatus.accepted, captain := some captainId } true, ?_, rfl⟩
    simp only [confirmRide]
    rw [h2]
  · refine ⟨rideView r true, ?_, rfl⟩
    simp only [startRide]
    rw [hfind]
    simp [hstat, hotp]


/-- An accepted ride holding OTP `123456`, for the C10 witness. -/
def c10ride0 : RideRec :=
  { id := 0, user := 1, captain := none, pickup := "A", destination := "B",
    fare := 120, status := RideStatus.accepted, otp := "123456" }

/-- A two-ride store for the C10 witness. -/
def c10rides : List RideRec :=
  [c10ride0,
   { id := 1, user := 2, captain := none, pickup := "C", destination := "D",
     fare := 80, status := RideStatus.pending, otp := "654321" }]

/-- Witness for `confirm_and_start_ride_responses_include_otp` on a
concrete store: ride 0 exists with status `accepted` and OTP `123456`, and
both responses carry that OTP while a default read hides it. -/
theorem confirm_and_start_ride_responses_include_otp_witness :
    findRide c10rides 0 = some c10ride0 ∧
    ((∃ v, (confirmRide c10rides 0 7).1 = some v ∧
        v.otp = some c10ride0.otp) ∧
     (∃ v, (startRide c10rides 0 "123456").1 = some v ∧
        v.otp = some c10ride0.otp) ∧
     (rideView c10ride0 false).otp = none) :=
  ⟨by decide,
   confirm_and_start_ride_responses_include_otp c10rides 0 7 c10ride0
     "123456" (by decide) rfl rfl⟩

end CabDispatch
